import Mathlib

/-!
Verification of the template-matching chord analyzer of the `neume` repository.

The definitions below are a shallow embedding of
`backend/services/chord_analyzer.py` and the pure core of
`backend/services/chord_extractor.py`.  Python floats are modelled by `ℚ`,
numpy arrays of 12 pitch-class energies by `List ℚ`, numpy `roll` by an
explicit index computation, and a raised `ValueError` by `Except.error`.
-/

/-- Translation of the pitch-class name table `PITCH_CLASSES`. -/
def PITCH_CLASSES : List String :=
  ["C", "C#", "D", "D#"] ++ ["E", "F", "F#", "G"] ++ ["G#", "A", "A#", "B"]

/-- Translation of the dataclass `ChordTemplate`. -/
structure ChordTemplate where
  name : String
  intervals : List ℕ
  optional : List ℕ
  forbidden : List ℕ
  priority : ℕ
deriving DecidableEq, Repr

/-- Translation of the catalog `CHORD_TEMPLATES` (source order preserved). -/
def CHORD_TEMPLATES : List ChordTemplate := [
  ⟨"maj13", [0, 4, 11, 9, 2], [7, 5], [3, 10], 102⟩,
  ⟨"13", [0, 4, 10, 9, 2], [7, 5], [3, 11], 101⟩,
  ⟨"min13", [0, 3, 10, 9, 2], [7, 5], [4, 11], 100⟩,
  ⟨"maj13", [0, 4, 11, 9], [7], [3, 10], 99⟩,
  ⟨"13", [0, 4, 10, 9], [7], [3, 11], 98⟩,
  ⟨"min13", [0, 3, 10, 9], [7], [4, 11], 97⟩,
  ⟨"maj13", [4, 11, 9, 2], [0, 7], [3, 10], 96⟩,
  ⟨"13", [4, 10, 9, 2], [0, 7], [3, 11], 95⟩,
  ⟨"maj11", [0, 4, 11, 2, 5], [7], [3, 10], 93⟩,
  ⟨"11", [0, 4, 10, 2, 5], [7], [3, 11], 92⟩,
  ⟨"min11", [0, 3, 10, 2, 5], [7], [4, 11], 91⟩,
  ⟨"maj11", [0, 4, 11, 5], [7, 2], [3, 10], 90⟩,
  ⟨"11", [0, 4, 10, 5], [7, 2], [3, 11], 89⟩,
  ⟨"min11", [0, 3, 10, 5], [7, 2], [4, 11], 88⟩,
  ⟨"maj11", [0, 11, 5], [7, 2], [3, 4, 10], 87⟩,
  ⟨"11", [0, 10, 5], [7, 2], [3, 4, 11], 86⟩,
  ⟨"maj11", [4, 11, 2, 5], [0, 7], [3, 10], 85⟩,
  ⟨"11", [4, 10, 2, 5], [0, 7], [3, 11], 84⟩,
  ⟨"min11", [3, 10, 2, 5], [0, 7], [4, 11], 83⟩,
  ⟨"maj9", [0, 4, 7, 11, 2], [], [3, 10], 82⟩,
  ⟨"9", [0, 4, 7, 10, 2], [], [3, 11], 81⟩,
  ⟨"min9", [0, 3, 7, 10, 2], [], [4, 11], 80⟩,
  ⟨"maj9", [0, 4, 11, 2], [7], [3, 10], 79⟩,
  ⟨"9", [0, 4, 10, 2], [7], [3, 11], 78⟩,
  ⟨"min9", [0, 3, 10, 2], [7], [4, 11], 77⟩,
  ⟨"maj9", [4, 11, 2], [0, 7], [3, 10], 76⟩,
  ⟨"9", [4, 10, 2], [0, 7], [3, 11], 75⟩,
  ⟨"min9", [3, 10, 2], [0, 7], [4, 11], 74⟩,
  ⟨"add9", [0, 4, 2], [7], [3, 10, 11], 73⟩,
  ⟨"madd9", [0, 3, 2], [7], [4, 10, 11], 72⟩,
  ⟨"maj7", [0, 4, 7, 11], [], [3, 10], 71⟩,
  ⟨"dom7", [0, 4, 7, 10], [], [3, 11], 70⟩,
  ⟨"min7", [0, 3, 7, 10], [], [4, 11], 69⟩,
  ⟨"maj7", [0, 4, 11], [7], [3, 10], 68⟩,
  ⟨"dom7", [0, 4, 10], [7], [3, 11], 67⟩,
  ⟨"min7", [0, 3, 10], [7], [4, 11], 66⟩,
  ⟨"maj7", [4, 11], [0, 7], [3, 10], 65⟩,
  ⟨"dom7", [4, 10], [0, 7], [3, 11], 64⟩,
  ⟨"min7", [3, 10], [0, 7], [4, 11], 63⟩,
  ⟨"m7b5", [0, 3, 6, 10], [], [4, 7, 11], 62⟩,
  ⟨"dim7", [0, 3, 6, 9], [], [4, 7, 10, 11], 61⟩,
  ⟨"minmaj7", [0, 3, 11], [7], [4, 10], 60⟩,
  ⟨"aug7", [0, 4, 8, 10], [], [3, 7, 11], 59⟩,
  ⟨"7sus4", [0, 5, 10], [7], [3, 4, 11], 115⟩,
  ⟨"7sus2", [0, 2, 10], [7], [3, 4, 11], 114⟩,
  ⟨"sus4", [0, 5, 7], [], [3, 4], 52⟩,
  ⟨"sus2", [0, 2, 7], [], [3, 4], 51⟩,
  ⟨"maj6", [0, 4, 9], [7], [3, 10, 11], 8⟩,
  ⟨"min6", [0, 3, 9], [7], [4, 10, 11], 7⟩,
  ⟨"aug", [0, 4, 8], [], [3, 7], 58⟩,
  ⟨"dim", [0, 3, 6], [], [4, 7], 57⟩,
  ⟨"major", [0, 4, 7], [], [3], 56⟩,
  ⟨"major", [0, 4], [7], [3], 55⟩,
  ⟨"minor", [0, 3, 7], [], [4], 54⟩,
  ⟨"minor", [0, 3], [7], [4], 53⟩,
  ⟨"power", [0, 7], [], [3, 4], 5⟩]

/-- Stable insertion of a template into a priority-descending list: the new
template goes after every already-present template of priority at least its
own, exactly as the stable Python `sorted(..., key=lambda x: -x.priority)`
orders elements. -/
def insertTemplate (t : ChordTemplate) : List ChordTemplate → List ChordTemplate
  | [] => [t]
  | u :: us => if t.priority ≤ u.priority then u :: insertTemplate t us else t :: u :: us

/-- Translation of the sort in `_build_templates` (the binary vectors that
the Python code also builds there are never read by `_correlation_match`,
so only the priority-descending template order matters). -/
def sortedTemplates : List ChordTemplate :=
  CHORD_TEMPLATES.foldl (fun acc t => insertTemplate t acc) []

/-- Default `presence_threshold` of `RobustChordAnalyzer` (0.2). -/
def presenceThreshold : ℚ := 1/5

/-- Translation of `_rotate`, that is `np.roll(arr, -shift)`: the entry at
index `i` of the result is the entry of `arr` at index `(i + shift) % len`. -/
def rotate (arr : List ℚ) (shift : ℕ) : List ℚ :=
  (List.range arr.length).map (fun i => arr.getD ((i + shift) % arr.length) 0)

/-- Model of `np.max` on a 12-element array (`0` default is never used on
the nonempty arrays the analyzer feeds in). -/
def listMax (l : List ℚ) : ℚ := (l.max?).getD 0

/-- Model of `np.argmax`: index of the first occurrence of the maximum,
used by `_detect_bass`. -/
def argmaxIdx (l : List ℚ) : ℕ :=
  (l.foldl (fun (acc : ℕ × ℕ × ℚ) (x : ℚ) =>
      if acc.2.2 < x then (acc.1 + 1, acc.1, x) else (acc.1 + 1, acc.2.1, acc.2.2))
    (0, 0, l.headD 0)).2.1

/-- Translation of `_normalize_hpcp`: divide by the maximum when it is
positive. -/
def normalizeHpcp (hpcp : List ℚ) : List ℚ :=
  let maxVal := listMax hpcp
  if 0 < maxVal then hpcp.map (fun x => x / maxVal) else hpcp

/-- The set `present` of `_correlation_match`: indices of bins strictly
above the presence threshold (kept as the sorted duplicate-free list of
elements of `range 12`). -/
def presentIntervals (rotated : List ℚ) : List ℕ :=
  (List.range 12).filter (fun i => decide (presenceThreshold < rotated.getD i 0))

/-- The `forbidden_present` test of `_correlation_match`. -/
def forbiddenPresent (ct : ChordTemplate) (present : List ℕ) : Bool :=
  ct.forbidden.any (fun i => present.contains i)

/-- The `required_present` test of `_correlation_match`: every required
interval is above half the presence threshold. -/
def requiredPresent (ct : ChordTemplate) (rotated : List ℚ) : Bool :=
  ct.intervals.all (fun i => decide (presenceThreshold * (1/2) < rotated.getD (i % 12) 0))

/-- The score computation of `_correlation_match`: mean over required
intervals, plus 0.15 of each optional bin above the threshold, minus 0.1
per extra active bin, plus 0.002 per priority unit. -/
def templateScore (rotated : List ℚ) (present : List ℕ) (ct : ChordTemplate) : ℚ :=
  let requiredScore :=
    ((ct.intervals.map (fun i => rotated.getD (i % 12) 0)).sum) / (ct.intervals.length : ℚ)
  let optionalBonus :=
    ((ct.optional.filter (fun i => decide (presenceThreshold < rotated.getD (i % 12) 0))).map
      (fun i => rotated.getD (i % 12) 0 * (3/20))).sum
  let extraPenalty :=
    ((present.filter (fun i => !(ct.intervals.contains i || ct.optional.contains i))).length : ℚ)
      * (1/10)
  let priorityBonus := (ct.priority : ℚ) * (1/500)
  requiredScore + optionalBonus - extraPenalty + priorityBonus

/-- Stable insertion into a score-descending list, matching the stable
Python `sorted(matches, key=lambda x: -x[1])`. -/
def insertMatch (p : ChordTemplate × ℚ) :
    List (ChordTemplate × ℚ) → List (ChordTemplate × ℚ)
  | [] => [p]
  | q :: qs => if p.2 ≤ q.2 then q :: insertMatch p qs else p :: q :: qs

/-- Stable sort of the match list by descending score. -/
def sortMatchesDesc (l : List (ChordTemplate × ℚ)) : List (ChordTemplate × ℚ) :=
  l.foldl (fun acc p => insertMatch p acc) []

/-- Body of `_correlation_match` on an already rotated vector: reject by
forbidden and required intervals, score, keep positive scores, sort by
descending score. -/
def correlationOn (rotated : List ℚ) : List (ChordTemplate × ℚ) :=
  let present := presentIntervals rotated
  let accepted := sortedTemplates.filter
    (fun ct => !(forbiddenPresent ct present) && requiredPresent ct rotated)
  let scored := (accepted.map (fun ct => (ct, templateScore rotated present ct))).filter
    (fun p => decide (0 < p.2))
  sortMatchesDesc scored

/-- Translation of `_correlation_match`. -/
def correlationMatch (hpcp : List ℚ) (root : ℕ) : List (ChordTemplate × ℚ) :=
  correlationOn (rotate hpcp root)

/-- Translation of `_get_active_intervals`. -/
def getActiveIntervals (hpcp : List ℚ) (root : ℕ) : List ℕ :=
  presentIntervals (rotate hpcp root)

/-- Model of Python `str.upper` (all key names here are ASCII). -/
def strUpper (s : String) : String := ⟨s.data.map Char.toUpper⟩

/-- Worker for `strReplace`: scan left to right, replacing each
non-overlapping occurrence of the (nonempty) pattern, with fuel bounding
the number of consumed characters. -/
def replaceChars (pat repl : List Char) : ℕ → List Char → List Char
  | _, [] => []
  | 0, s => s
  | fuel + 1, c :: cs =>
    if pat.isPrefixOf (c :: cs) then
      repl ++ replaceChars pat repl fuel (cs.drop (pat.length - 1))
    else c :: replaceChars pat repl fuel cs

/-- Model of Python `str.replace`: replace every non-overlapping
occurrence of `pat`, scanning left to right (all patterns used by the
analyzer are nonempty). -/
def strReplace (s pat repl : String) : String :=
  if pat.data = [] then s
  else ⟨replaceChars pat.data repl.data s.data.length s.data⟩

/-- Translation of the key-name parsing in `analyze_frame`: uppercase, then
the textual replacements B to A#, DB to C#, EB to D#, GB to F#, AB to G#
applied in that order, then lookup in `PITCH_CLASSES` with a fallback
lookup of the plain uppercased name.  Unrecognized names give `none`. -/
def keyIdxOf (key : String) : Option ℕ :=
  let keyUpper :=
    strReplace (strReplace (strReplace (strReplace (strReplace (strUpper key)
      "B" "A#") "DB" "C#") "EB" "D#") "GB" "F#") "AB" "G#"
  match PITCH_CLASSES.findIdx? (fun s => s = keyUpper) with
  | some i => some i
  | none => PITCH_CLASSES.findIdx? (fun s => s = strUpper key)

/-- Translation of the nested dictionary `DIATONIC_PRIORITY`, looked up at
a scale degree and quality with default 0. -/
def diatonicLookup (mode : String) (deg : ℕ) (q : String) : ℕ :=
  if mode = "major" then
    match deg with
    | 0 => if q = "major" then 100 else if q = "maj7" then 95 else
           if q = "maj9" then 90 else 0
    | 2 => if q = "minor" then 100 else if q = "min7" then 95 else
           if q = "min9" then 90 else 0
    | 4 => if q = "minor" then 100 else if q = "min7" then 95 else 0
    | 5 => if q = "major" then 100 else if q = "maj7" then 95 else 0
    | 7 => if q = "major" then 100 else if q = "dom7" then 95 else
           if q = "9" then 90 else if q = "13" then 85 else 0
    | 9 => if q = "minor" then 100 else if q = "min7" then 95 else 0
    | 11 => if q = "dim" then 100 else if q = "m7b5" then 95 else
            if q = "dim7" then 90 else 0
    | _ => 0
  else if mode = "minor" then
    match deg with
    | 0 => if q = "minor" then 100 else if q = "min7" then 95 else
           if q = "minmaj7" then 85 else 0
    | 2 => if q = "dim" then 100 else if q = "m7b5" then 95 else 0
    | 3 => if q = "major" then 100 else if q = "maj7" then 95 else 0
    | 5 => if q = "minor" then 100 else if q = "min7" then 95 else 0
    | 7 => if q = "minor" then 80 else if q = "dom7" then 100 else
           if q = "major" then 90 else 0
    | 8 => if q = "major" then 100 else if q = "maj7" then 95 else 0
    | 10 => if q = "major" then 100 else if q = "dom7" then 95 else 0
    | 11 => if q = "dim" then 100 else if q = "dim7" then 95 else 0
    | _ => 0
  else 0

/-- Translation of `_get_diatonic_bonus`: 0 outside major and minor mode,
otherwise the table priority at scale degree `(root - key) mod 12` times
0.005. -/
def getDiatonicBonus (rootIdx : ℕ) (quality : String) (keyIdx : ℕ) (mode : String) : ℚ :=
  if mode = "major" ∨ mode = "minor" then
    (diatonicLookup mode ((((rootIdx : ℤ) - (keyIdx : ℤ)) % 12).toNat) quality : ℚ) * (1/200)
  else 0

/-- Translation of the dataclass `ChordResult`. -/
structure ChordResult where
  root : String
  quality : String
  bass : Option String
  confidence : ℚ
  all_intervals : List ℕ
deriving DecidableEq, Repr

/-- Translation of `ChordResult._quality_suffix` (dictionary lookup with
the quality itself as default). -/
def qualitySuffix (q : String) : String :=
  if q = "major" then "" else if q = "minor" then "m" else if q = "dim" then "dim"
  else if q = "aug" then "+" else if q = "maj7" then "maj7" else if q = "dom7" then "7"
  else if q = "min7" then "m7" else if q = "m7b5" then "m7b5" else if q = "dim7" then "dim7"
  else if q = "minmaj7" then "mM7" else if q = "aug7" then "+7" else if q = "maj6" then "6"
  else if q = "min6" then "m6" else if q = "sus4" then "sus4" else if q = "sus2" then "sus2"
  else if q = "7sus4" then "7sus4" else if q = "7sus2" then "7sus2"
  else if q = "maj9" then "maj9" else if q = "9" then "9" else if q = "min9" then "m9"
  else if q = "add9" then "add9" else if q = "madd9" then "madd9"
  else if q = "maj11" then "maj11" else if q = "11" then "11" else if q = "min11" then "m11"
  else if q = "maj13" then "maj13" else if q = "13" then "13" else if q = "min13" then "m13"
  else if q = "power" then "5" else q

/-- Translation of `ChordResult.to_symbol` (the emptiness test models the
Python truthiness test on the bass string). -/
def ChordResult.toSymbol (r : ChordResult) : String :=
  let symbol := r.root ++ qualitySuffix r.quality
  match r.bass with
  | some b => if b ≠ "" ∧ b ≠ r.root then symbol ++ "/" ++ b else symbol
  | none => symbol

/-- Translation of `analyze_frame`.  A wrong vector length raises, modelled
as `Except.error`; the no-chord sentinel `None` is `Except.ok none`. -/
def analyzeFrame (hpcp : List ℚ) (key mode : Option String) :
    Except String (Option ChordResult) :=
  if hpcp.length ≠ 12 then
    .error ("HPCP must have 12 elements, got " ++ toString hpcp.length)
  else
    let h := normalizeHpcp hpcp
    if listMax h < presenceThreshold then .ok none
    else
      let bassIdx := argmaxIdx h
      let bassName := PITCH_CLASSES.getD bassIdx ""
      let keyIdx := key.bind keyIdxOf
      let step := fun (acc : Option ChordResult × ℚ) (rootIdx : ℕ) =>
        match correlationMatch h rootIdx with
        | [] => acc
        | (ct, sc) :: _ =>
          let s1 := if rootIdx = bassIdx then sc * (6/5) else sc
          let s2 := match keyIdx, mode with
            | some ki, some m =>
              if m ≠ "" then s1 + getDiatonicBonus rootIdx ct.name ki m else s1
            | _, _ => s1
          if acc.2 < s2 then
            (some { root := PITCH_CLASSES.getD rootIdx "",
                    quality := ct.name,
                    bass := if bassIdx ≠ rootIdx then some bassName else none,
                    confidence := min 1 s2,
                    all_intervals := getActiveIntervals h rootIdx }, s2)
          else acc
      .ok ((List.range 12).foldl step (none, 0)).1

/-- Translation of the dictionary built by `ChordResult.to_dict`.  The
Python extensions dictionary only ever maps keys to `True`, so it is
modelled by its key list in insertion order. -/
structure ChordDict where
  root : String
  quality : String
  extensions : List String
  bass : Option String
  confidence : ℚ
  symbol : String
  originalQuality : String
deriving DecidableEq, Repr

/-- Translation of `ChordResult.to_dict`.  The Python substring tests on the
quality name (for example, whether the digit 9 occurs in the quality
name) are written as the equivalent membership tests on the closed
quality list guarding each branch. -/
def ChordResult.toDict (r : ChordResult) : ChordDict :=
  let q := r.quality
  let p : String × List String :=
    if q = "maj7" ∨ q = "maj9" ∨ q = "maj11" ∨ q = "maj13" then
      ("major", ["maj7"]
        ++ (if q = "maj9" ∨ q = "maj11" ∨ q = "maj13" then ["add9"] else [])
        ++ (if q = "maj11" ∨ q = "maj13" then ["add11"] else [])
        ++ (if q = "maj13" then ["add13"] else []))
    else if q = "min7" ∨ q = "min9" ∨ q = "min11" ∨ q = "min13" then
      ("minor", ["min7"]
        ++ (if q = "min9" ∨ q = "min11" ∨ q = "min13" then ["add9"] else [])
        ++ (if q = "min11" ∨ q = "min13" then ["add11"] else [])
        ++ (if q = "min13" then ["add13"] else []))
    else if q = "dom7" ∨ q = "9" ∨ q = "11" ∨ q = "13" then
      ("major", ["dom7"]
        ++ (if q = "9" ∨ q = "11" ∨ q = "13" then ["add9"] else [])
        ++ (if q = "11" ∨ q = "13" then ["add11"] else [])
        ++ (if q = "13" then ["add13"] else []))
    else if q = "add9" then ("major", ["add9"])
    else if q = "madd9" then ("minor", ["add9"])
    else if q = "7sus4" then ("major", ["dom7", "sus4"])
    else if q = "7sus2" then ("major", ["dom7", "sus2"])
    else if q = "sus4" then ("major", ["sus4"])
    else if q = "sus2" then ("major", ["sus2"])
    else if q = "m7b5" then ("minor", ["min7", "b5"])
    else if q = "dim7" then ("diminished", ["dim7"])
    else if q = "minmaj7" then ("minor", ["maj7"])
    else if q = "aug7" then ("augmented", ["dom7"])
    else if q = "major" then ("major", [])
    else if q = "minor" then ("minor", [])
    else if q = "dim" then ("diminished", [])
    else if q = "aug" then ("augmented", [])
    else if q = "power" then ("power", [])
    else if q = "maj6" then ("major", ["add6"])
    else if q = "min6" then ("minor", ["add6"])
    else (q, [])
  { root := r.root, quality := p.1, extensions := p.2, bass := r.bass,
    confidence := r.confidence, symbol := r.toSymbol, originalQuality := r.quality }

/-- A chord dictionary together with the `startTime` and `duration` keys
that `analyze_progression` adds before appending to the progression. -/
structure ChordSegment where
  chord : ChordDict
  startTime : ℚ
  duration : ℚ
deriving DecidableEq, Repr

/-- Loop state of `analyze_progression`: the accumulated progression, the
current chord signature, the start time and frame index of its run, and
the chord results observed during the run. -/
structure SegState where
  prog : List ChordSegment
  current : Option String
  startTime : ℚ
  startIdx : ℕ
  results : List ChordResult
deriving DecidableEq

/-- Initial loop state of `analyze_progression`. -/
def initSegState : SegState := ⟨[], none, 0, 0, []⟩

/-- The Python `max(chord_results, key=lambda r: r.confidence)`: the first
result with maximal confidence. -/
def bestByConfidence (r0 : ChordResult) (rs : List ChordResult) : ChordResult :=
  rs.foldl (fun best r => if best.confidence < r.confidence then r else best) r0

/-- Closing a run at frame index `i`: emit a segment when a chord run is
open, its result list is nonempty and its duration reaches the minimum
duration, as in the two save-previous-chord blocks of
`analyze_progression`. -/
def closeRun (fd minDur : ℚ) (st : SegState) (i : ℕ) : List ChordSegment :=
  match st.current, st.results with
  | some _, r0 :: rest =>
    if minDur ≤ ((i - st.startIdx : ℕ) : ℚ) * fd then
      st.prog ++ [⟨(bestByConfidence r0 rest).toDict, st.startTime,
        ((i - st.startIdx : ℕ) : ℚ) * fd⟩]
    else st.prog
  | _, _ => st.prog

/-- One iteration of the frame loop of `analyze_progression` at frame
index `i`. -/
def segStep (fd minDur : ℚ) (st : SegState) (i : ℕ) (result : Option ChordResult) :
    SegState :=
  if result.map ChordResult.toSymbol ≠ st.current then
    { prog := closeRun fd minDur st i
      current := result.map ChordResult.toSymbol
      startTime := (i : ℚ) * fd
      startIdx := i
      results := match result with | some r => [r] | none => [] }
  else
    { st with results := st.results ++ (match result with | some r => [r] | none => []) }

/-- The frame loop of `analyze_progression` followed by the final
save-previous-chord block. -/
def segLoop (fd minDur : ℚ) : List (Option ChordResult) → ℕ → SegState → List ChordSegment
  | [], i, st => closeRun fd minDur st i
  | res :: rest, i, st => segLoop fd minDur rest (i + 1) (segStep fd minDur st i res)

/-- Translation of `analyze_progression`: analyze every frame (a frame of
wrong length raises, propagated as the error case) and fold the segmenter
over the per-frame results with frame duration `hop_size / sample_rate`. -/
def analyzeProgression (hpcps : List (List ℚ)) (hopSize sampleRate : ℕ)
    (minDuration : ℚ) (key mode : Option String) : Except String (List ChordSegment) :=
  match hpcps.mapM (fun h => analyzeFrame h key mode) with
  | .error e => .error e
  | .ok results =>
    .ok (segLoop ((hopSize : ℚ) / (sampleRate : ℚ)) minDuration results 0 initSegState)

/-- Translation of `pitch_class_map` in `_find_hpcp_rotation`, looked up
with default 0 as `pitch_class_map.get(key, 0)` does. -/
def pitchClassMap (key : String) : ℕ :=
  ([("C", 0), ("C#", 1), ("Db", 1), ("D", 2), ("D#", 3), ("Eb", 3),
    ("E", 4), ("F", 5), ("F#", 6), ("Gb", 6), ("G", 7), ("G#", 8),
    ("Ab", 8), ("A", 9), ("A#", 10), ("Bb", 10), ("B", 11)].lookup key).getD 0

/-- Translation of the expected-triad construction in
`_find_hpcp_rotation`. -/
def triadOf (key mode : String) : List ℕ :=
  let keyRoot := pitchClassMap key
  if mode = "minor" then [keyRoot, (keyRoot + 3) % 12, (keyRoot + 7) % 12]
  else [keyRoot, (keyRoot + 4) % 12, (keyRoot + 7) % 12]

/-- Score of one rotation in `_find_hpcp_rotation`: summed energy of the
rotated vector at the triad positions. -/
def rotScore (w : List ℚ) (triad : List ℕ) (rot : ℕ) : ℚ :=
  (triad.map (fun pc => (rotate w rot).getD pc 0)).sum

/-- The best-rotation loop of `_find_hpcp_rotation`: fold over candidate
rotations keeping the first strict improvement, starting from rotation 0
and score -1. -/
def foldBest (sc : ℕ → ℚ) (l : List ℕ) (acc : ℕ × ℚ) : ℕ × ℚ :=
  l.foldl (fun a j => if a.2 < sc j then (j, sc j) else a) acc

/-- The result `(best_rotation, best_score)` of the rotation loop of
`_find_hpcp_rotation`. -/
def bestRotation (w : List ℚ) (triad : List ℕ) : ℕ × ℚ :=
  foldBest (rotScore w triad) (List.range 12) (0, -1)

/-- Translation of the pure core of `_find_hpcp_rotation`, taking the
averaged HPCP vector (the audio sampling, HPCP extraction and averaging
are the external MIR collaborator): normalize, score all 12 rotations
against the expected key triad, and return the best rotation only when it
beats the unrotated score by more than 10 percent. -/
def findHpcpRotation (avg : List ℚ) (key mode : String) : ℕ :=
  if ((triadOf key mode).map (fun pc => (normalizeHpcp avg).getD pc 0)).sum * (11/10)
      < (bestRotation (normalizeHpcp avg) (triadOf key mode)).2 then
    (bestRotation (normalizeHpcp avg) (triadOf key mode)).1
  else 0

/-- Translation of the tempo octave correction in `extract_chords`: when
the tempo exceeds 100 BPM and fewer than 3 beats per second of audio were
detected, halve the tempo. -/
def correctTempo (bpm : ℚ) (numBeats : ℕ) (audioDuration : ℚ) : ℚ :=
  if 100 < bpm then
    let beatsPerSecond : ℚ := if 0 < audioDuration then (numBeats : ℚ) / audioDuration else 0
    if beatsPerSecond < 3 ∧ 100 < bpm then bpm / 2 else bpm
  else bpm

/-- Concrete test frame: a full C major triad, bins C, E, G at strengths
1, 0.8, 0.9 (the C major test vector of the source test suite). -/
def vCmaj : List ℚ := [1, 0, 0, 0, 4/5, 0, 0, 9/10, 0, 0, 0, 0]

/-- Concrete test frame: a full G7, bins G, B, D, F at strengths 1, 0.8,
0.9, 0.7 (the G7 test vector of the source test suite). -/
def vG7 : List ℚ := [0, 0, 9/10, 0, 0, 7/10, 0, 1, 0, 0, 0, 4/5]

/-- Concrete test frame: a bare tritone dyad, full strength at pitch
classes 0 and 6 only. -/
def vTritone : List ℚ := [1, 0, 0] ++ [0, 0, 0] ++ [1, 0, 0] ++ [0, 0, 0]

/-- Concrete test frame whose peak energy 0.1 is below the presence
threshold 0.2; it is a scaled-down copy of `vCmaj`. -/
def vSmallPeak : List ℚ := [1/10, 0, 0, 0, 2/25, 0, 0, 9/100, 0, 0, 0, 0]

/-- A 20-frame sequence: ten C major frames followed by ten G7 frames. -/
def myFrames : List (List ℚ) :=
  List.replicate 10 vCmaj ++ List.replicate 10 vG7

/-- The analyzer result on `vCmaj`. -/
def rCmaj : ChordResult := ⟨"C", "major", none, 1, [0, 4, 7]⟩

/-- The analyzer result on `vG7`. -/
def rG7 : ChordResult := ⟨"G", "dom7", none, 1, [0, 4, 7, 10]⟩

/-- The analyzer result on `vTritone`: a rootless dominant-seventh reading
rooted at D over bass C. -/
def rTritone : ChordResult := ⟨"D", "dom7", some "C", 1, [4, 10]⟩

/-- The first segment `analyze_progression` emits on `myFrames`. -/
def segCmaj : ChordSegment := ⟨⟨"C", "major", [], none, 1, "C", "major"⟩, 0, 1⟩

/-- The second segment `analyze_progression` emits on `myFrames`: its
`quality` field is the base quality `"major"`, with the dominant seventh
recorded in `extensions` and `originalQuality`. -/
def segG7 : ChordSegment := ⟨⟨"G", "major", ["dom7"], none, 1, "G7", "dom7"⟩, 1, 1⟩

/-- The shell major template (root and third, optional fifth), the
top-scoring template for `vCmaj` at root 0. -/
def tMajorNo5 : ChordTemplate := ⟨"major", [0, 4], [7], [3], 55⟩

/-- The power-chord template of the catalog. -/
def tPower : ChordTemplate := ⟨"power", [0, 7], [], [3, 4], 5⟩

/-- Concrete vector on which the power-chord template passes both
rejection checks of the Matcher yet scores below zero: required bins 0
and 7 sit at 0.15 (above half the threshold, below the threshold) while
eight other bins are fully active. -/
def vNegScore : List ℚ := [3/20, 1, 1, 0, 0, 1, 1, 3/20, 1, 1, 1, 1]

/-- Loop invariant of the segmenter at next frame index `i`: the emitted
segments are chained without overlap, long and positive, they all end by
the start of the open run, the open run starts at `startIdx * fd` with
`startIdx` at most `i`, and a genuinely open run started strictly before
`i`. -/
def SegInv (fd m : ℚ) (i : ℕ) (st : SegState) : Prop :=
  st.prog.Chain' (fun a b => a.startTime + a.duration ≤ b.startTime) ∧
  (∀ s ∈ st.prog, m ≤ s.duration) ∧
  (∀ s ∈ st.prog, 0 < s.duration) ∧
  (∀ s ∈ st.prog, s.startTime + s.duration ≤ st.startTime) ∧
  st.startTime = (st.startIdx : ℚ) * fd ∧
  st.startIdx ≤ i ∧
  (st.current ≠ none → st.startIdx < i)

/-! ## Helper lemmas about the match sort and rotation -/

theorem mem_insertMatch {x p : ChordTemplate × ℚ} :
    ∀ {l : List (ChordTemplate × ℚ)}, x ∈ insertMatch p l ↔ x = p ∨ x ∈ l := by
  intro l
  induction l with
  | nil => simp [insertMatch]
  | cons q qs ih =>
    rw [insertMatch]
    split <;> simp only [List.mem_cons, ih] <;> tauto

theorem chain_insertMatch {p : ChordTemplate × ℚ} :
    ∀ {l : List (ChordTemplate × ℚ)},
      l.Chain' (fun a b => b.2 ≤ a.2) → (insertMatch p l).Chain' (fun a b => b.2 ≤ a.2) := by
  intro l
  induction l with
  | nil => intro _; simp [insertMatch]
  | cons q qs ih =>
    intro hl
    rw [insertMatch]
    split
    case isTrue h =>
      refine List.chain'_cons'.mpr ⟨?_, ih hl.tail⟩
      intro y hy
      cases qs with
      | nil =>
        simp [insertMatch] at hy
        subst hy; exact h
      | cons q2 qs2 =>
        rw [insertMatch] at hy
        split at hy
        · simp only [List.head?_cons, Option.mem_def, Option.some.injEq] at hy
          subst hy
          exact (List.chain'_cons.mp hl).1
        · simp only [List.head?_cons, Option.mem_def, Option.some.injEq] at hy
          subst hy
          exact h
    case isFalse h =>
      exact List.chain'_cons.mpr ⟨le_of_lt (lt_of_not_le h), hl⟩

theorem mem_foldl_insertMatch {x : ChordTemplate × ℚ} :
    ∀ (l acc : List (ChordTemplate × ℚ)),
      x ∈ l.foldl (fun acc p => insertMatch p acc) acc ↔ x ∈ acc ∨ x ∈ l := by
  intro l
  induction l with
  | nil => simp
  | cons p ps ih =>
    intro acc
    rw [List.foldl_cons, ih, mem_insertMatch]
    simp only [List.mem_cons]
    tauto

theorem mem_sortMatchesDesc {x : ChordTemplate × ℚ} {l : List (ChordTemplate × ℚ)} :
    x ∈ sortMatchesDesc l ↔ x ∈ l := by
  rw [sortMatchesDesc, mem_foldl_insertMatch]
  simp

theorem chain_foldl_insertMatch :
    ∀ (l acc : List (ChordTemplate × ℚ)),
      acc.Chain' (fun a b => b.2 ≤ a.2) →
      (l.foldl (fun acc p => insertMatch p acc) acc).Chain' (fun a b => b.2 ≤ a.2) := by
  intro l
  induction l with
  | nil => intro acc h; simpa using h
  | cons p ps ih =>
    intro acc h
    rw [List.foldl_cons]
    exact ih _ (chain_insertMatch h)

theorem chain_sortMatchesDesc (l : List (ChordTemplate × ℚ)) :
    (sortMatchesDesc l).Chain' (fun a b => b.2 ≤ a.2) :=
  chain_foldl_insertMatch l [] (by simp)

theorem length_rotate (v : List ℚ) (s : ℕ) : (rotate v s).length = v.length := by
  simp [rotate]

theorem getD_rotate (v : List ℚ) (s i : ℕ) (h : i < v.length) :
    (rotate v s).getD i 0 = v.getD ((i + s) % v.length) 0 := by
  rw [rotate, List.getD_eq_getElem?_getD, List.getElem?_map, List.getElem?_range h]
  simp

theorem rotate_rotate (v : List ℚ) (k m : ℕ) (h : v.length = 12) :
    rotate (rotate v k) m = rotate v ((m + k) % 12) := by
  apply List.ext_getElem (by simp [length_rotate])
  intro i h1 h2
  have hi : i < 12 := by
    have h3 := h1
    rw [length_rotate, length_rotate, h] at h3
    exact h3
  rw [← List.getD_eq_getElem _ 0 h1, ← List.getD_eq_getElem _ 0 h2]
  rw [getD_rotate _ _ _ (by rw [length_rotate, h]; exact hi)]
  rw [length_rotate, h]
  rw [getD_rotate _ _ _ (by rw [h]; exact Nat.mod_lt _ (by norm_num))]
  rw [getD_rotate _ _ _ (by rw [h]; exact hi)]
  rw [h]
  congr 1
  omega

theorem rotate_zero (v : List ℚ) : rotate v 0 = v := by
  apply List.ext_getElem (by simp [length_rotate])
  intro i h1 h2
  rw [← List.getD_eq_getElem _ 0 h1, ← List.getD_eq_getElem _ 0 h2]
  rw [getD_rotate _ _ _ h2]
  rw [Nat.add_zero, Nat.mod_eq_of_lt h2]

deriving instance DecidableEq for Except

set_option maxRecDepth 1000000

/-- Helper: on a 12-element vector, `analyzeFrame` always returns an `ok`
value. -/
theorem analyzeFrame_ok_of_length12 (hpcp : List ℚ) (key mode : Option String)
    (h12 : hpcp.length = 12) : ∃ res, analyzeFrame hpcp key mode = Except.ok res := by
  rw [analyzeFrame, if_neg (not_ne_iff.mpr h12)]
  dsimp only
  split
  · exact ⟨none, rfl⟩
  · exact ⟨_, rfl⟩

/-- C5 (confirmed): `analyze_frame` raises (the `ValueError` branch,
modelled as `Except.error`) exactly when the input vector does not have 12
elements, and on a 12-element vector it always returns data (`Except.ok`,
carrying the no-chord sentinel or a chord result) rather than raising. -/
theorem analyzeFrame_error_iff_bad_length (hpcp : List ℚ) (key mode : Option String) :
    ((∃ e, analyzeFrame hpcp key mode = Except.error e) ↔ hpcp.length ≠ 12) ∧
    (hpcp.length = 12 → ∃ res, analyzeFrame hpcp key mode = Except.ok res) := by
  refine ⟨⟨?_, ?_⟩, fun h12 => analyzeFrame_ok_of_length12 hpcp key mode h12⟩
  · rintro ⟨e, he⟩ h12
    obtain ⟨res, hres⟩ := analyzeFrame_ok_of_length12 hpcp key mode h12
    rw [hres] at he
    exact Except.noConfusion he
  · intro h12
    exact ⟨_, by rw [analyzeFrame, if_pos h12]⟩

/-- Witness for C5 at concrete inputs: an 11-element vector raises, the
12-element vector `vCmaj` does not. -/
theorem analyzeFrame_error_iff_bad_length_witness :
    (∃ e, analyzeFrame [1] none none = Except.error e) ∧
    (∃ res, analyzeFrame vCmaj none none = Except.ok res) :=
  ⟨(analyzeFrame_error_iff_bad_length [1] none none).1.mpr (by decide),
   (analyzeFrame_error_iff_bad_length vCmaj none none).2 (by decide)⟩

/-- C4 counterexample: a vector whose (input) peak energy 0.1 is below the
presence threshold 0.2 does not yield the no-chord sentinel, because
`analyze_frame` normalizes the vector to peak 1.0 before the energy test;
the scaled-down C major triad `vSmallPeak` comes back as a C major chord. -/
theorem analyzeFrame_low_input_peak_still_chord :
    listMax vSmallPeak < presenceThreshold ∧ vSmallPeak.length = 12 ∧
    analyzeFrame vSmallPeak none none = Except.ok (some rCmaj) ∧
    analyzeFrame vSmallPeak none none ≠ Except.ok none := by
  with_unfolding_all decide

/-- C4 (corrected): the no-chord test is applied after max-normalization,
so `analyze_frame` returns the no-chord sentinel whenever the peak of the
normalized vector is below the presence threshold (for a nonnegative
input this means the input peak is not positive, since any vector with a
positive peak normalizes to peak 1.0). -/
theorem analyzeFrame_none_of_low_normalized_peak (hpcp : List ℚ) (key mode : Option String)
    (h12 : hpcp.length = 12)
    (hmax : listMax (normalizeHpcp hpcp) < presenceThreshold) :
    analyzeFrame hpcp key mode = Except.ok none := by
  rw [analyzeFrame, if_neg (not_ne_iff.mpr h12)]
  dsimp only
  rw [if_pos hmax]

/-- Witness for C4 (corrected) on the all-zero frame. -/
theorem analyzeFrame_none_of_low_normalized_peak_witness :
    analyzeFrame (List.replicate 12 (0 : ℚ)) none none = Except.ok none :=
  analyzeFrame_none_of_low_normalized_peak (List.replicate 12 (0 : ℚ)) none none
    (by decide) (by with_unfolding_all decide)

/-- C8 counterexample: the tempo octave correction is not idempotent in
general: at 240 BPM with 10 beats over 60 seconds (1/6 beats per second)
the first application gives 120 BPM and a second application halves again
to 60 BPM. -/
theorem tempo_correction_not_idempotent_at_240 :
    correctTempo 240 10 60 = 120 ∧
    correctTempo (correctTempo 240 10 60) 10 60 ≠ correctTempo 240 10 60 := by
  with_unfolding_all decide

/-- C8 (corrected): the tempo octave correction is idempotent for tempos
of at most 200 BPM: then the halved tempo is at most 100 BPM, so a second
application with the same beat count and audio duration changes nothing.
Above 200 BPM with fewer than 3 beats per second the corrected tempo
still exceeds 100 BPM and a second application halves it again. -/
theorem tempo_correction_idempotent_below_200 (bpm : ℚ) (numBeats : ℕ)
    (audioDuration : ℚ) (hb : bpm ≤ 200) :
    correctTempo (correctTempo bpm numBeats audioDuration) numBeats audioDuration
      = correctTempo bpm numBeats audioDuration := by
  by_cases h1 : 100 < bpm
  · by_cases h2 :
      (if 0 < audioDuration then (numBeats : ℚ) / audioDuration else 0) < 3 ∧ 100 < bpm
    · have hx : correctTempo bpm numBeats audioDuration = bpm / 2 := by
        rw [correctTempo, if_pos h1]
        dsimp only
        rw [if_pos h2]
      rw [hx]
      have hnot : ¬ (100 < bpm / 2) := by
        intro hc
        nlinarith
      rw [correctTempo, if_neg hnot]
    · have hx : correctTempo bpm numBeats audioDuration = bpm := by
        rw [correctTempo, if_pos h1]
        dsimp only
        rw [if_neg h2]
      rw [hx, correctTempo, if_pos h1]
      dsimp only
      rw [if_neg h2]
  · have hx : correctTempo bpm numBeats audioDuration = bpm := by
      rw [correctTempo, if_neg h1]
    rw [hx, hx]

/-- Witness for C8 (corrected) at 150 BPM, 1 beat, 1 second. -/
theorem tempo_correction_idempotent_below_200_witness :
    correctTempo (correctTempo 150 1 1) 1 1 = correctTempo 150 1 1 :=
  tempo_correction_idempotent_below_200 150 1 1 (by norm_num)

/-- C9 counterexample: on the bare tritone dyad (full-strength bins 0 and
6) the analyzer does not resolve to a diminished-leaning result nor to
the no-chord sentinel: it returns the rootless dominant-seventh reading
D7 over bass C. -/
theorem tritone_dyad_not_dim_or_nochord :
    analyzeFrame vTritone none none = Except.ok (some rTritone) ∧
    rTritone.quality ≠ "dim" ∧ rTritone.quality ≠ "dim7" ∧ rTritone.quality ≠ "m7b5" ∧
    analyzeFrame vTritone none none ≠ Except.ok none := by
  with_unfolding_all decide

/-- C9 (corrected): on the bare tritone dyad no triad template (major,
minor, dim, aug, sus2, sus4, power) is the winning match; the frame
resolves to the rootless dominant-seventh template, giving D7 over bass
C. -/
theorem tritone_dyad_resolves_to_dom7 :
    analyzeFrame vTritone none none = Except.ok (some rTritone) ∧
    rTritone.quality = "dom7" ∧
    rTritone.quality ∉ ["major", "minor", "dim", "aug", "sus2", "sus4", "power"] := by
  with_unfolding_all decide

/-- C10 (confirmed): the key name B resolves to pitch class 10 (A#)
because the uppercase B is textually replaced by A# before the lookup;
the flat key names Db, Eb, Gb, Ab, Bb resolve to no pitch class at all
(disabling the diatonic bonus, as the concrete comparison with the
context-free run shows); and no key name ever makes `analyze_frame`
raise. -/
theorem key_parsing_quirks :
    keyIdxOf "B" = some 10 ∧
    keyIdxOf "Db" = none ∧ keyIdxOf "Eb" = none ∧ keyIdxOf "Gb" = none ∧
    keyIdxOf "Ab" = none ∧ keyIdxOf "Bb" = none ∧
    (∀ key mode : String,
      analyzeFrame (List.replicate 12 0) (some key) (some mode) = Except.ok none) ∧
    analyzeFrame vCmaj (some "Bb") (some "major") = analyzeFrame vCmaj none none := by
  refine ⟨?_, ?_, ?_, ?_, ?_, ?_, ?_, ?_⟩
  · with_unfolding_all decide
  · with_unfolding_all decide
  · with_unfolding_all decide
  · with_unfolding_all decide
  · with_unfolding_all decide
  · with_unfolding_all decide
  · intro key mode
    with_unfolding_all rfl
  · with_unfolding_all decide

/-- C3 (confirmed): the Matcher is rotation symmetric: running it on the
vector rotated by `k` with root hypothesis `(r - k) mod 12` gives exactly
the same ranked match list as running it on the original vector with
root `r`. -/
theorem matcher_rotation_symmetry (v : List ℚ) (k r : ℕ)
    (hv : v.length = 12) (hk : k < 12) (hr : r < 12) :
    correlationMatch (rotate v k) ((r + 12 - k) % 12) = correlationMatch v r := by
  rw [correlationMatch, correlationMatch, rotate_rotate v k _ hv]
  rw [show ((r + 12 - k) % 12 + k) % 12 = r by omega]

/-- Witness for C3 at a concrete vector, rotation 3 and root 5. -/
theorem matcher_rotation_symmetry_witness :
    correlationMatch (rotate vCmaj 3) ((5 + 12 - 3) % 12) = correlationMatch vCmaj 5 :=
  matcher_rotation_symmetry vCmaj 3 5 (by decide) (by decide) (by decide)

/-- C1 (corrected): every pair returned by the Matcher passed the
forbidden-interval and required-interval rejection checks, has positive
score, and its score is exactly mean(required bins) + 0.15 times each
optional bin above the threshold - 0.1 per extra active bin + 0.002 times
the priority; conversely every accepted template with positive score is
returned with that score; and the returned list is sorted by descending
score.  (Templates passing the rejection checks with nonpositive score
are dropped, which corrects the claim.) -/
theorem matcher_score_formula_and_order (v : List ℚ) (root : ℕ) :
    (∀ p ∈ correlationMatch v root,
      forbiddenPresent p.1 (presentIntervals (rotate v root)) = false ∧
      requiredPresent p.1 (rotate v root) = true ∧
      0 < p.2 ∧
      p.2 = ((p.1.intervals.map fun i => (rotate v root).getD (i % 12) 0).sum
              / (p.1.intervals.length : ℚ)
            + ((p.1.optional.filter fun i =>
                  decide (presenceThreshold < (rotate v root).getD (i % 12) 0)).map
                (fun i => (rotate v root).getD (i % 12) 0 * (3/20))).sum
            - (((presentIntervals (rotate v root)).filter fun i =>
                  !(p.1.intervals.contains i || p.1.optional.contains i)).length : ℚ)
                * (1/10)
            + (p.1.priority : ℚ) * (1/500))) ∧
    (∀ ct ∈ sortedTemplates,
      forbiddenPresent ct (presentIntervals (rotate v root)) = false →
      requiredPresent ct (rotate v root) = true →
      0 < templateScore (rotate v root) (presentIntervals (rotate v root)) ct →
      (ct, templateScore (rotate v root) (presentIntervals (rotate v root)) ct)
        ∈ correlationMatch v root) ∧
    (correlationMatch v root).Chain' (fun a b => b.2 ≤ a.2) := by
  refine ⟨?_, ?_, ?_⟩
  · intro p hp
    rw [correlationMatch, correlationOn, mem_sortMatchesDesc, List.mem_filter,
      List.mem_map] at hp
    obtain ⟨⟨ct, hct, hfeq⟩, hpos⟩ := hp
    rw [List.mem_filter] at hct
    obtain ⟨hctT, hg⟩ := hct
    rw [Bool.and_eq_true, Bool.not_eq_true'] at hg
    subst hfeq
    refine ⟨hg.1, hg.2, by simpa using hpos, ?_⟩
    rfl
  · intro ct hctT hforb hreq hpos
    rw [correlationMatch, correlationOn, mem_sortMatchesDesc, List.mem_filter]
    refine ⟨List.mem_map.mpr ⟨ct, List.mem_filter.mpr ⟨hctT, ?_⟩, rfl⟩, by simpa using hpos⟩
    rw [Bool.and_eq_true, Bool.not_eq_true']
    exact ⟨hforb, hreq⟩
  · rw [correlationMatch, correlationOn]
    exact chain_sortMatchesDesc _

/-- C1 counterexample: on `vNegScore` at root 0, the power-chord template
passes both rejection checks but its score is negative (-0.64), so it is
not among the returned matches: not every check-surviving template is
returned. -/
theorem matcher_drops_nonpositive_passing_template :
    tPower ∈ sortedTemplates ∧
    forbiddenPresent tPower (presentIntervals (rotate vNegScore 0)) = false ∧
    requiredPresent tPower (rotate vNegScore 0) = true ∧
    templateScore (rotate vNegScore 0) (presentIntervals (rotate vNegScore 0)) tPower < 0 ∧
    (∀ p ∈ correlationMatch vNegScore 0, p.1 ≠ tPower) := by
  with_unfolding_all decide

/-- Witness for C1 at `vCmaj`, root 0, on the top match (the shell major
template with score 229/200). -/
theorem matcher_score_formula_and_order_witness :
    forbiddenPresent tMajorNo5 (presentIntervals (rotate vCmaj 0)) = false ∧
    requiredPresent tMajorNo5 (rotate vCmaj 0) = true ∧
    0 < ((229 : ℚ)/200) ∧
    (tMajorNo5, templateScore (rotate vCmaj 0) (presentIntervals (rotate vCmaj 0)) tMajorNo5)
      ∈ correlationMatch vCmaj 0 := by
  have h1 := (matcher_score_formula_and_order vCmaj 0).1 (tMajorNo5, 229/200)
    (by with_unfolding_all decide)
  have h2 := (matcher_score_formula_and_order vCmaj 0).2.1 tMajorNo5
    (by with_unfolding_all decide) h1.1 h1.2.1 (by with_unfolding_all decide)
  exact ⟨h1.1, h1.2.1, h1.2.2.1, h2⟩

/-! ## Helper lemmas for the rotation correction (C7) -/

theorem length_normalizeHpcp (v : List ℚ) : (normalizeHpcp v).length = v.length := by
  rw [normalizeHpcp]
  split <;> simp

theorem mem_rotate {v : List ℚ} (h12 : v.length = 12) (s : ℕ) {x : ℚ} :
    x ∈ rotate v s ↔ x ∈ v := by
  constructor
  · intro hx
    rw [rotate, List.mem_map] at hx
    obtain ⟨i, hi, heq⟩ := hx
    rw [List.mem_range] at hi
    have hlt : (i + s) % v.length < v.length := Nat.mod_lt _ (by omega)
    rw [List.getD_eq_getElem _ 0 hlt] at heq
    exact heq ▸ List.getElem_mem hlt
  · intro hx
    obtain ⟨j, hj, rfl⟩ := List.mem_iff_getElem.mp hx
    rw [rotate, List.mem_map]
    refine ⟨(j + 12 - s % 12) % 12, List.mem_range.mpr (by rw [h12]; omega), ?_⟩
    have hidx : ((j + 12 - s % 12) % 12 + s) % v.length = j := by
      rw [h12]
      have hj12 : j < 12 := h12 ▸ hj
      omega
    rw [hidx, List.getD_eq_getElem _ 0 hj]

theorem listMax_rotate (v : List ℚ) (h12 : v.length = 12) (s : ℕ) :
    listMax (rotate v s) = listMax v := by
  have hmax : ∀ (l l2 : List ℚ), (∀ x : ℚ, x ∈ l ↔ x ∈ l2) → l ≠ [] →
      l.max? = l2.max? := by
    intro l l2 hiff hne
    have : Std.Antisymm ((· : ℚ) ≤ ·) := ⟨fun h1 h2 => le_antisymm h1 h2⟩
    rcases hm : l.max? with _ | m
    · exact absurd (List.max?_eq_none_iff.mp hm) hne
    · have hm2 := (List.max?_eq_some_iff le_refl max_choice (fun a b c => max_le_iff)).mp hm
      have hl2 : l2.max? = some m :=
        (List.max?_eq_some_iff le_refl max_choice (fun a b c => max_le_iff)).mpr
          ⟨(hiff m).mp hm2.1, fun b hb => hm2.2 b ((hiff b).mpr hb)⟩
      rw [hl2]
  rw [listMax, listMax, hmax (rotate v s) v (fun x => mem_rotate h12 s)]
  intro hc
  have := congrArg List.length hc
  rw [length_rotate, h12] at this
  simp at this

theorem normalizeHpcp_rotate (v : List ℚ) (h12 : v.length = 12) (s : ℕ) :
    normalizeHpcp (rotate v s) = rotate (normalizeHpcp v) s := by
  rw [normalizeHpcp, normalizeHpcp, listMax_rotate v h12 s]
  split
  · apply List.ext_getElem (by simp [length_rotate])
    intro i h1 h2
    have hi12 : i < 12 := by
      rw [List.length_map, length_rotate, h12] at h1
      exact h1
    rw [List.getElem_map]
    rw [← List.getD_eq_getElem (rotate v s) 0 (by rw [length_rotate, h12]; exact hi12)]
    rw [getD_rotate v s i (by rw [h12]; exact hi12)]
    rw [← List.getD_eq_getElem _ 0 h2]
    rw [getD_rotate _ s i (by rw [List.length_map, h12]; exact hi12)]
    rw [List.length_map]
    have hlt : (i + s) % v.length < v.length := Nat.mod_lt _ (by rw [h12]; norm_num)
    rw [List.getD_eq_getElem (List.map (fun x => x / listMax v) v) 0
      (by rw [List.length_map]; exact hlt)]
    rw [List.getElem_map]
    rw [List.getD_eq_getElem v 0 hlt]
  · rfl

theorem rotScore_rotate (w : List ℚ) (triad : List ℕ) (r j : ℕ) (hw : w.length = 12) :
    rotScore (rotate w r) triad j = rotScore w triad ((j + r) % 12) := by
  rw [rotScore, rotScore, rotate_rotate w r j hw]

theorem foldBest_cons (sc : ℕ → ℚ) (j : ℕ) (js : List ℕ) (acc : ℕ × ℚ) :
    foldBest sc (j :: js) acc = foldBest sc js (if acc.2 < sc j then (j, sc j) else acc) :=
  rfl

theorem foldBest_snd_le (sc : ℕ → ℚ) :
    ∀ (l : List ℕ) (acc : ℕ × ℚ), acc.2 ≤ (foldBest sc l acc).2 := by
  intro l
  induction l with
  | nil => intro acc; exact le_refl _
  | cons j js ih =>
    intro acc
    rw [foldBest_cons]
    split
    case isTrue h => exact le_trans (le_of_lt h) (ih (j, sc j))
    case isFalse h => exact ih acc

theorem le_foldBest_of_mem (sc : ℕ → ℚ) :
    ∀ (l : List ℕ) (acc : ℕ × ℚ), ∀ j ∈ l, sc j ≤ (foldBest sc l acc).2 := by
  intro l
  induction l with
  | nil => intro acc j hj; exact absurd hj (List.not_mem_nil j)
  | cons j2 js ih =>
    intro acc j hj
    rw [foldBest_cons]
    rcases List.mem_cons.mp hj with rfl | hjs
    · split
      case isTrue h => exact foldBest_snd_le sc js (j, sc j)
      case isFalse h => exact le_trans (le_of_not_lt h) (foldBest_snd_le sc js acc)
    · exact ih _ j hjs

theorem foldBest_eq_acc_or_mem (sc : ℕ → ℚ) :
    ∀ (l : List ℕ) (acc : ℕ × ℚ),
      foldBest sc l acc = acc ∨ ∃ j ∈ l, foldBest sc l acc = (j, sc j) := by
  intro l
  induction l with
  | nil => intro acc; exact Or.inl rfl
  | cons j js ih =>
    intro acc
    rw [foldBest_cons]
    split
    case isTrue h =>
      rcases ih (j, sc j) with heq | ⟨j2, hj2, hje⟩
      · exact Or.inr ⟨j, List.mem_cons_self j js, heq⟩
      · exact Or.inr ⟨j2, List.mem_cons_of_mem j hj2, hje⟩
    case isFalse h =>
      rcases ih acc with heq | ⟨j2, hj2, hje⟩
      · exact Or.inl heq
      · exact Or.inr ⟨j2, List.mem_cons_of_mem j hj2, hje⟩

theorem foldBest_of_forall_le (sc : ℕ → ℚ) :
    ∀ (l : List ℕ) (acc : ℕ × ℚ), (∀ j ∈ l, sc j ≤ acc.2) → foldBest sc l acc = acc := by
  intro l
  induction l with
  | nil => intro acc _; rfl
  | cons j js ih =>
    intro acc hle
    rw [foldBest_cons]
    rw [if_neg (not_lt.mpr (hle j (List.mem_cons_self j js)))]
    exact ih acc (fun j2 hj2 => hle j2 (List.mem_cons_of_mem j hj2))

theorem foldBest_fst_zero (sc : ℕ → ℚ) (l : List ℕ)
    (hle : ∀ j ∈ l, sc j ≤ sc 0) : (foldBest sc (0 :: l) (0, -1)).1 = 0 := by
  rw [foldBest_cons]
  split
  case isTrue h =>
    rw [foldBest_of_forall_le sc l (0, sc 0) (fun j hj => hle j hj)]
  case isFalse h =>
    rw [foldBest_of_forall_le sc l (0, -1)
      (fun j hj => le_trans (hle j hj) (le_of_not_lt h))]

/-- C7 (confirmed): the HPCP rotation selection is idempotent: if it
selects rotation `r` on an averaged vector, it selects rotation 0 on the
vector already rotated by `r`, so re-running the correction on corrected
data changes nothing. -/
theorem hpcp_rotation_idempotent (avg : List ℚ) (key mode : String)
    (h12 : avg.length = 12) :
    findHpcpRotation (rotate avg (findHpcpRotation avg key mode)) key mode = 0 := by
  by_cases hr0 : findHpcpRotation avg key mode = 0
  · rw [hr0, rotate_zero, hr0]
  · have hw12 : (normalizeHpcp avg).length = 12 := by rw [length_normalizeHpcp, h12]
    by_cases hcond :
        ((triadOf key mode).map (fun pc => (normalizeHpcp avg).getD pc 0)).sum * (11/10)
          < (bestRotation (normalizeHpcp avg) (triadOf key mode)).2
    · have hbr : findHpcpRotation avg key mode
          = (bestRotation (normalizeHpcp avg) (triadOf key mode)).1 := by
        rw [findHpcpRotation, if_pos hcond]
      have hmem := foldBest_eq_acc_or_mem
        (rotScore (normalizeHpcp avg) (triadOf key mode)) (List.range 12) (0, -1)
      rw [← bestRotation] at hmem
      rcases hmem with heq | ⟨j, hj, hje⟩
      · rw [hbr, heq] at hr0
        exact absurd rfl hr0
      · have hj12 : j < 12 := List.mem_range.mp hj
        have hjr : findHpcpRotation avg key mode = j := by rw [hbr, hje]
        have hr12 : findHpcpRotation avg key mode < 12 := by rw [hjr]; exact hj12
        have hsc : ∀ i, rotScore
              (normalizeHpcp (rotate avg (findHpcpRotation avg key mode)))
              (triadOf key mode) i
            = rotScore (normalizeHpcp avg) (triadOf key mode)
                ((i + findHpcpRotation avg key mode) % 12) := by
          intro i
          rw [normalizeHpcp_rotate avg h12 _]
          exact rotScore_rotate _ _ _ _ hw12
        have hsc0 : rotScore
              (normalizeHpcp (rotate avg (findHpcpRotation avg key mode)))
              (triadOf key mode) 0
            = (bestRotation (normalizeHpcp avg) (triadOf key mode)).2 := by
          rw [hsc 0, Nat.zero_add, Nat.mod_eq_of_lt hr12, hjr, hje]
        have hdom : ∀ i ∈ [1, 2, 3, 4, 5, 6, 7, 8, 9, 10, 11],
            rotScore (normalizeHpcp (rotate avg (findHpcpRotation avg key mode)))
                (triadOf key mode) i
              ≤ rotScore (normalizeHpcp (rotate avg (findHpcpRotation avg key mode)))
                  (triadOf key mode) 0 := by
          intro i _
          rw [hsc i, hsc0]
          have hrange : (i + findHpcpRotation avg key mode) % 12 ∈ List.range 12 :=
            List.mem_range.mpr (Nat.mod_lt _ (by norm_num))
          have := le_foldBest_of_mem (rotScore (normalizeHpcp avg) (triadOf key mode))
            (List.range 12) (0, -1) _ hrange
          rw [← bestRotation] at this
          exact this
        have hbz : (bestRotation
            (normalizeHpcp (rotate avg (findHpcpRotation avg key mode)))
            (triadOf key mode)).1 = 0 := by
          rw [bestRotation]
          rw [show List.range 12 = 0 :: [1, 2, 3, 4, 5, 6, 7, 8, 9, 10, 11] from rfl]
          exact foldBest_fst_zero _ _ hdom
        rw [findHpcpRotation]
        split
        · exact hbz
        · rfl
    · rw [findHpcpRotation, if_neg hcond] at hr0
      exact absurd rfl hr0

/-- Witness for C7: the C major frame rotated by 5 selects rotation 7,
and after applying it the selection is 0. -/
theorem hpcp_rotation_idempotent_witness :
    findHpcpRotation
        (rotate (rotate vCmaj 5) (findHpcpRotation (rotate vCmaj 5) "C" "major"))
        "C" "major" = 0 :=
  hpcp_rotation_idempotent (rotate vCmaj 5) "C" "major" (by rw [length_rotate]; rfl)

/-! ## Segmenter invariants (C6) -/

theorem closeRun_props (fd m : ℚ) (hfd : 0 < fd) (st : SegState) (i : ℕ)
    (hinv : SegInv fd m i st) :
    (closeRun fd m st i).Chain' (fun a b => a.startTime + a.duration ≤ b.startTime) ∧
    (∀ s ∈ closeRun fd m st i, m ≤ s.duration) ∧
    (∀ s ∈ closeRun fd m st i, 0 < s.duration) ∧
    (∀ s ∈ closeRun fd m st i, s.startTime + s.duration ≤ (i : ℚ) * fd) := by
  obtain ⟨hchain, hm, hpos, hend, hstart, hle, hcur⟩ := hinv
  have hifd : (st.startIdx : ℚ) * fd ≤ (i : ℚ) * fd :=
    mul_le_mul_of_nonneg_right (by exact_mod_cast hle) (le_of_lt hfd)
  have hbase : (∀ s ∈ st.prog, s.startTime + s.duration ≤ (i : ℚ) * fd) :=
    fun s hs => le_trans (hend s hs) (le_of_eq_of_le hstart hifd)
  rw [closeRun]
  split
  case h_1 val r0 rest hcureq hreseq =>
    split
    case isTrue hdur =>
      have hlt : st.startIdx < i := by
        apply hcur
        rw [hcureq]
        simp
      have hdpos : 0 < ((i - st.startIdx : ℕ) : ℚ) * fd := by
        apply mul_pos _ hfd
        exact_mod_cast Nat.sub_pos_of_lt hlt
      have hsum : st.startTime + ((i - st.startIdx : ℕ) : ℚ) * fd = (i : ℚ) * fd := by
        rw [hstart, ← add_mul]
        congr 1
        rw [Nat.cast_sub (le_of_lt hlt)]
        ring
      refine ⟨?_, ?_, ?_, ?_⟩
      · rw [List.chain'_append]
        refine ⟨hchain, List.chain'_singleton _, ?_⟩
        intro x hx y hy
        simp only [List.head?_cons, Option.mem_def, Option.some.injEq] at hy
        subst hy
        exact hend x (List.mem_of_mem_getLast? hx)
      · intro s hs
        rcases List.mem_append.mp hs with hs1 | hs2
        · exact hm s hs1
        · simp only [List.mem_singleton] at hs2
          subst hs2
          exact hdur
      · intro s hs
        rcases List.mem_append.mp hs with hs1 | hs2
        · exact hpos s hs1
        · simp only [List.mem_singleton] at hs2
          subst hs2
          exact hdpos
      · intro s hs
        rcases List.mem_append.mp hs with hs1 | hs2
        · exact hbase s hs1
        · simp only [List.mem_singleton] at hs2
          subst hs2
          exact le_of_eq hsum
    case isFalse hdur =>
      exact ⟨hchain, hm, hpos, hbase⟩
  case h_2 =>
    exact ⟨hchain, hm, hpos, hbase⟩

theorem segStep_inv (fd m : ℚ) (hfd : 0 < fd) (st : SegState) (i : ℕ)
    (res : Option ChordResult) (hinv : SegInv fd m i st) :
    SegInv fd m (i + 1) (segStep fd m st i res) := by
  rw [segStep.eq_def]
  split
  case isTrue hne =>
    obtain ⟨hc, hm2, hp2, he2⟩ := closeRun_props fd m hfd st i hinv
    exact ⟨hc, hm2, hp2, he2, rfl, Nat.le_succ i, fun _ => Nat.lt_succ_self i⟩
  case isFalse hne =>
    obtain ⟨h1, h2, h3, h4, h5, h6, h7⟩ := hinv
    exact ⟨h1, h2, h3, h4, h5, Nat.le_succ_of_le h6, fun hc => Nat.lt_succ_of_lt (h7 hc)⟩

theorem segLoop_props (fd m : ℚ) (hfd : 0 < fd) :
    ∀ (frames : List (Option ChordResult)) (i : ℕ) (st : SegState),
      SegInv fd m i st →
      (segLoop fd m frames i st).Chain'
        (fun a b => a.startTime + a.duration ≤ b.startTime) ∧
      (∀ s ∈ segLoop fd m frames i st, m ≤ s.duration) ∧
      (∀ s ∈ segLoop fd m frames i st, 0 < s.duration) := by
  intro frames
  induction frames with
  | nil =>
    intro i st hinv
    obtain ⟨a, b, c, _⟩ := closeRun_props fd m hfd st i hinv
    exact ⟨a, b, c⟩
  | cons r rest ih =>
    intro i st hinv
    rw [segLoop]
    exact ih (i + 1) _ (segStep_inv fd m hfd st i r hinv)

theorem chain_lt_of_chain_le :
    ∀ l : List ChordSegment,
      l.Chain' (fun a b => a.startTime + a.duration ≤ b.startTime) →
      (∀ s ∈ l, 0 < s.duration) →
      l.Chain' (fun a b => a.startTime < b.startTime) := by
  intro l
  induction l with
  | nil => intro _ _; exact List.chain'_nil
  | cons a t ih =>
    intro hc hp
    cases t with
    | nil => exact List.chain'_singleton a
    | cons b t2 =>
      rw [List.chain'_cons] at hc ⊢
      refine ⟨?_, ih hc.2 (fun s hs => hp s (List.mem_cons_of_mem a hs))⟩
      have ha := hp a (List.mem_cons_self a _)
      linarith [hc.1]

/-- C6 (confirmed): whenever `analyze_progression` returns a segment
list (with a positive frame duration), every emitted segment has
duration at least the minimum, the segments are pairwise non-overlapping
(each ends no later than the next starts), and their start times are
strictly increasing. -/
theorem progression_segments_invariants (hpcps : List (List ℚ)) (hop sr : ℕ) (m : ℚ)
    (key mode : Option String) (segs : List ChordSegment)
    (hhop : 0 < hop) (hsr : 0 < sr)
    (hres : analyzeProgression hpcps hop sr m key mode = Except.ok segs) :
    (∀ s ∈ segs, m ≤ s.duration) ∧
    segs.Chain' (fun a b => a.startTime + a.duration ≤ b.startTime) ∧
    segs.Chain' (fun a b => a.startTime < b.startTime) := by
  have hfd : 0 < (hop : ℚ) / (sr : ℚ) :=
    div_pos (by exact_mod_cast hhop) (by exact_mod_cast hsr)
  rw [analyzeProgression] at hres
  cases hmapM : hpcps.mapM (fun h => analyzeFrame h key mode) with
  | error e =>
    rw [hmapM] at hres
    exact Except.noConfusion hres
  | ok results =>
    rw [hmapM] at hres
    have hsegs : segLoop ((hop : ℚ) / (sr : ℚ)) m results 0 initSegState = segs :=
      Except.ok.inj hres
    have hinit : SegInv ((hop : ℚ) / (sr : ℚ)) m 0 initSegState := by
      refine ⟨List.chain'_nil, ?_, ?_, ?_, by simp [initSegState], le_refl 0, ?_⟩
      · intro s hs; exact absurd hs (List.not_mem_nil s)
      · intro s hs; exact absurd hs (List.not_mem_nil s)
      · intro s hs; exact absurd hs (List.not_mem_nil s)
      · intro hc; exact absurd rfl hc
    obtain ⟨hc, hm2, hp2⟩ := segLoop_props _ m hfd results 0 initSegState hinit
    rw [hsegs] at hc hm2 hp2
    exact ⟨hm2, hc, chain_lt_of_chain_le segs hc hp2⟩

/-- Witness for C6 on the concrete 20-frame input: both segments last 1
second, do not overlap, and start at strictly increasing times. -/
theorem progression_segments_invariants_witness :
    (∀ s ∈ [segCmaj, segG7], (1 : ℚ)/2 ≤ s.duration) ∧
    ([segCmaj, segG7]).Chain' (fun a b => a.startTime + a.duration ≤ b.startTime) ∧
    ([segCmaj, segG7]).Chain' (fun a b => a.startTime < b.startTime) :=
  progression_segments_invariants myFrames 4410 44100 (1/2) none none [segCmaj, segG7]
    (by norm_num) (by norm_num) (by with_unfolding_all decide)

/-! ## Helper lemmas for the two-segment progression shape (C2) -/

theorem mapM_ok_of_pointwise (g : List ℚ → Except String (Option ChordResult)) :
    ∀ (l : List (List ℚ)) (f : ℕ → Option ChordResult),
      (∀ i, i < l.length → g (l.getD i []) = Except.ok (f i)) →
      l.mapM g = Except.ok ((List.range l.length).map f) := by
  intro l
  induction l with
  | nil => intro f _; rfl
  | cons a t ih =>
    intro f hf
    rw [List.mapM_cons]
    have h0 : g a = Except.ok (f 0) := by
      have h := hf 0 (Nat.succ_pos _)
      simpa using h
    have ht : t.mapM g = Except.ok ((List.range t.length).map fun j => f (j + 1)) := by
      apply ih
      intro i hi
      have h := hf (i + 1) (by simpa using Nat.succ_lt_succ hi)
      simpa using h
    rw [h0, ht]
    show Except.ok (f 0 :: (List.range t.length).map fun j => f (j + 1))
        = Except.ok ((List.range (a :: t).length).map f)
    congr 1
    rw [List.length_cons, List.range_succ_eq_map, List.map_cons, List.map_map]
    rfl

theorem segLoop_const_run (fd m : ℚ) (c : String) :
    ∀ l : List ChordResult, (∀ x ∈ l, ChordResult.toSymbol x = c) →
    ∀ (rest : List (Option ChordResult)) (i : ℕ) (st : SegState),
      st.current = some c →
      segLoop fd m (l.map some ++ rest) i st
        = segLoop fd m rest (i + l.length) { st with results := st.results ++ l } := by
  intro l
  induction l with
  | nil =>
    intro _ rest i st _
    simp
  | cons x xs ih =>
    intro hsym rest i st hcur
    rw [List.map_cons, List.cons_append, segLoop]
    have hcond : (some x).map ChordResult.toSymbol = st.current := by
      rw [Option.map_some', hsym x (List.mem_cons_self x xs), hcur]
    have hstep : segStep fd m st i (some x) = { st with results := st.results ++ [x] } := by
      rw [segStep.eq_def, if_neg (not_not_intro hcond)]
    rw [hstep]
    rw [ih (fun y hy => hsym y (List.mem_cons_of_mem x hy)) rest (i + 1)
      { st with results := st.results ++ [x] } hcur]
    rw [List.length_cons]
    rw [show i + 1 + xs.length = i + (xs.length + 1) by omega]
    rw [List.append_assoc, List.singleton_append]

theorem bestByConfidence_prop (P : ChordResult → Prop) :
    ∀ (rs : List ChordResult) (r0 : ChordResult), P r0 → (∀ x ∈ rs, P x) →
      P (bestByConfidence r0 rs) := by
  intro rs
  induction rs with
  | nil => intro r0 h _; exact h
  | cons x xs ih =>
    intro r0 h hall
    rw [bestByConfidence, List.foldl_cons]
    show P (bestByConfidence (if r0.confidence < x.confidence then x else r0) xs)
    apply ih
    · split
      · exact hall x (List.mem_cons_self x xs)
      · exact h
    · exact fun y hy => hall y (List.mem_cons_of_mem x hy)

theorem toDict_fields_major (b : ChordResult) (h : b.quality = "major") :
    b.toDict.root = b.root ∧ b.toDict.quality = "major" ∧
    b.toDict.extensions = [] ∧ b.toDict.originalQuality = "major" := by
  simp [ChordResult.toDict, h]

theorem toDict_fields_dom7 (b : ChordResult) (h : b.quality = "dom7") :
    b.toDict.root = b.root ∧ b.toDict.quality = "major" ∧
    b.toDict.extensions = ["dom7"] ∧ b.toDict.originalQuality = "dom7" := by
  simp [ChordResult.toDict, h]

/-- C2 (corrected): if frames 0 through 9 analyze to a C major result
(label "C") and frames 10 through 19 analyze to a G7 result (label
"G7"), then `analyze_progression` at frame duration 0.1 s and minimum
duration 0.5 s returns exactly two non-overlapping one-second segments
starting at 0.0 and 1.0; the first has quality "major" with root C, and
the second has root G with quality field "major" (the base quality) and
the dominant seventh recorded in the extensions and original quality,
not quality "dom7" as the claim words it. -/
theorem progression_two_segments (hpcps : List (List ℚ)) (key mode : Option String)
    (r : ℕ → ChordResult)
    (hlen : hpcps.length = 20)
    (hframe : ∀ i, i < 20 →
      analyzeFrame (hpcps.getD i []) key mode = Except.ok (some (r i)))
    (hC : ∀ i, i < 10 →
      (r i).toSymbol = "C" ∧ (r i).root = "C" ∧ (r i).quality = "major")
    (hG : ∀ i, 10 ≤ i → i < 20 →
      (r i).toSymbol = "G7" ∧ (r i).root = "G" ∧ (r i).quality = "dom7") :
    ∃ s1 s2 : ChordSegment,
      analyzeProgression hpcps 4410 44100 (1/2) key mode = Except.ok [s1, s2] ∧
      s1.chord.root = "C" ∧ s1.chord.quality = "major" ∧
      s1.chord.originalQuality = "major" ∧
      s1.startTime = 0 ∧ s1.duration = 1 ∧
      s2.chord.root = "G" ∧ s2.chord.quality = "major" ∧
      s2.chord.originalQuality = "dom7" ∧ s2.chord.extensions = ["dom7"] ∧
      s2.startTime = 1 ∧ s2.duration = 1 := by
  have hs0 : (r 0).toSymbol = "C" := (hC 0 (by norm_num)).1
  have hs10 : (r 10).toSymbol = "G7" := (hG 10 (by norm_num) (by norm_num)).1
  have hlC : ∀ x ∈ [r 1, r 2, r 3, r 4, r 5, r 6, r 7, r 8, r 9],
      ChordResult.toSymbol x = "C" := by
    intro x hx
    fin_cases hx <;> exact (hC _ (by norm_num)).1
  have hlG : ∀ x ∈ [r 11, r 12, r 13, r 14, r 15, r 16, r 17, r 18, r 19],
      ChordResult.toSymbol x = "G7" := by
    intro x hx
    fin_cases hx <;> exact (hG _ (by norm_num) (by norm_num)).1
  have hmapM : hpcps.mapM (fun h => analyzeFrame h key mode)
      = Except.ok ((List.range 20).map fun i => some (r i)) := by
    have h := mapM_ok_of_pointwise (fun h => analyzeFrame h key mode) hpcps
      (fun i => some (r i)) (fun i hi => hframe i (hlen ▸ hi))
    rw [hlen] at h
    exact h
  have hprog : analyzeProgression hpcps 4410 44100 (1/2) key mode
      = Except.ok (segLoop ((1 : ℚ)/10) (1/2)
          ((List.range 20).map fun i => some (r i)) 0 initSegState) := by
    rw [analyzeProgression.eq_def, hmapM]
    have hfd : ((4410 : ℕ) : ℚ) / ((44100 : ℕ) : ℚ) = (1 : ℚ)/10 := by norm_num
    rw [hfd]
  have hsplit : ((List.range 20).map fun i => some (r i))
      = some (r 0) :: ([r 1, r 2, r 3, r 4, r 5, r 6, r 7, r 8, r 9].map some
          ++ (some (r 10) :: ([r 11, r 12, r 13, r 14, r 15, r 16, r 17, r 18, r 19].map some
              ++ ([] : List (Option ChordResult))))) := rfl
  have hstep0 : segStep ((1 : ℚ)/10) (1/2) initSegState 0 (some (r 0))
      = ⟨[], some "C", 0, 0, [r 0]⟩ := by
    have hcur0 : (some (r 0)).map ChordResult.toSymbol = some "C" := by
      rw [Option.map_some', hs0]
    have hst0 : ((0 : ℕ) : ℚ) * ((1 : ℚ)/10) = 0 := by norm_num
    rw [segStep.eq_def, if_pos (by simp [hs0, initSegState])]
    rw [hcur0, hst0]
    rfl
  have e1 : segLoop ((1 : ℚ)/10) (1/2)
        ((List.range 20).map fun i => some (r i)) 0 initSegState
      = segLoop ((1 : ℚ)/10) (1/2)
          ([r 1, r 2, r 3, r 4, r 5, r 6, r 7, r 8, r 9].map some
            ++ (some (r 10) :: ([r 11, r 12, r 13, r 14, r 15, r 16, r 17, r 18, r 19].map some
                ++ ([] : List (Option ChordResult))))) 1 ⟨[], some "C", 0, 0, [r 0]⟩ := by
    rw [hsplit, segLoop, hstep0]
  have e2 : segLoop ((1 : ℚ)/10) (1/2)
        ([r 1, r 2, r 3, r 4, r 5, r 6, r 7, r 8, r 9].map some
          ++ (some (r 10) :: ([r 11, r 12, r 13, r 14, r 15, r 16, r 17, r 18, r 19].map some
              ++ ([] : List (Option ChordResult))))) 1 ⟨[], some "C", 0, 0, [r 0]⟩
      = segLoop ((1 : ℚ)/10) (1/2)
          (some (r 10) :: ([r 11, r 12, r 13, r 14, r 15, r 16, r 17, r 18, r 19].map some
              ++ ([] : List (Option ChordResult)))) 10
          ⟨[], some "C", 0, 0, [r 0, r 1, r 2, r 3, r 4, r 5, r 6, r 7, r 8, r 9]⟩ := by
    rw [segLoop_const_run ((1 : ℚ)/10) (1/2) "C"
      [r 1, r 2, r 3, r 4, r 5, r 6, r 7, r 8, r 9] hlC _ 1
      ⟨[], some "C", 0, 0, [r 0]⟩ rfl]
    rfl
  have hstep10 : segStep ((1 : ℚ)/10) (1/2)
        ⟨[], some "C", 0, 0, [r 0, r 1, r 2, r 3, r 4, r 5, r 6, r 7, r 8, r 9]⟩ 10
        (some (r 10))
      = ⟨[⟨(bestByConfidence (r 0) [r 1, r 2, r 3, r 4, r 5, r 6, r 7, r 8, r 9]).toDict,
            0, 1⟩], some "G7", 1, 10, [r 10]⟩ := by
    have hcr10 : closeRun ((1 : ℚ)/10) (1/2)
        ⟨[], some "C", 0, 0, [r 0, r 1, r 2, r 3, r 4, r 5, r 6, r 7, r 8, r 9]⟩ 10
        = [⟨(bestByConfidence (r 0) [r 1, r 2, r 3, r 4, r 5, r 6, r 7, r 8, r 9]).toDict,
            0, 1⟩] := by
      rw [closeRun.eq_def]
      norm_num
    have hcur10 : (some (r 10)).map ChordResult.toSymbol = some "G7" := by
      rw [Option.map_some', hs10]
    have hst10 : ((10 : ℕ) : ℚ) * ((1 : ℚ)/10) = 1 := by norm_num
    rw [segStep.eq_def, if_pos (by simp [hs10])]
    rw [hcr10, hcur10, hst10]
  have e3 : segLoop ((1 : ℚ)/10) (1/2)
        (some (r 10) :: ([r 11, r 12, r 13, r 14, r 15, r 16, r 17, r 18, r 19].map some
            ++ ([] : List (Option ChordResult)))) 10
        ⟨[], some "C", 0, 0, [r 0, r 1, r 2, r 3, r 4, r 5, r 6, r 7, r 8, r 9]⟩
      = segLoop ((1 : ℚ)/10) (1/2)
          ([r 11, r 12, r 13, r 14, r 15, r 16, r 17, r 18, r 19].map some
            ++ ([] : List (Option ChordResult))) 11
          ⟨[⟨(bestByConfidence (r 0) [r 1, r 2, r 3, r 4, r 5, r 6, r 7, r 8, r 9]).toDict,
              0, 1⟩], some "G7", 1, 10, [r 10]⟩ := by
    rw [segLoop, hstep10]
  have e4 : segLoop ((1 : ℚ)/10) (1/2)
        ([r 11, r 12, r 13, r 14, r 15, r 16, r 17, r 18, r 19].map some
          ++ ([] : List (Option ChordResult))) 11
        ⟨[⟨(bestByConfidence (r 0) [r 1, r 2, r 3, r 4, r 5, r 6, r 7, r 8, r 9]).toDict,
            0, 1⟩], some "G7", 1, 10, [r 10]⟩
      = segLoop ((1 : ℚ)/10) (1/2) ([] : List (Option ChordResult)) 20
          ⟨[⟨(bestByConfidence (r 0) [r 1, r 2, r 3, r 4, r 5, r 6, r 7, r 8, r 9]).toDict,
              0, 1⟩], some "G7", 1, 10,
            [r 10, r 11, r 12, r 13, r 14, r 15, r 16, r 17, r 18, r 19]⟩ := by
    rw [segLoop_const_run ((1 : ℚ)/10) (1/2) "G7"
      [r 11, r 12, r 13, r 14, r 15, r 16, r 17, r 18, r 19] hlG _ 11
      ⟨[⟨(bestByConfidence (r 0) [r 1, r 2, r 3, r 4, r 5, r 6, r 7, r 8, r 9]).toDict,
          0, 1⟩], some "G7", 1, 10, [r 10]⟩ rfl]
    rfl
  have e5 : segLoop ((1 : ℚ)/10) (1/2) ([] : List (Option ChordResult)) 20
        ⟨[⟨(bestByConfidence (r 0) [r 1, r 2, r 3, r 4, r 5, r 6, r 7, r 8, r 9]).toDict,
            0, 1⟩], some "G7", 1, 10,
          [r 10, r 11, r 12, r 13, r 14, r 15, r 16, r 17, r 18, r 19]⟩
      = [⟨(bestByConfidence (r 0) [r 1, r 2, r 3, r 4, r 5, r 6, r 7, r 8, r 9]).toDict,
            0, 1⟩,
         ⟨(bestByConfidence (r 10)
              [r 11, r 12, r 13, r 14, r 15, r 16, r 17, r 18, r 19]).toDict, 1, 1⟩] := by
    rw [segLoop, closeRun.eq_def]
    norm_num
  have hbestC : (bestByConfidence (r 0) [r 1, r 2, r 3, r 4, r 5, r 6, r 7, r 8, r 9]).root = "C"
      ∧ (bestByConfidence (r 0) [r 1, r 2, r 3, r 4, r 5, r 6, r 7, r 8, r 9]).quality
          = "major" := by
    apply bestByConfidence_prop (fun x => x.root = "C" ∧ x.quality = "major")
    · exact ⟨(hC 0 (by norm_num)).2.1, (hC 0 (by norm_num)).2.2⟩
    · intro x hx
      fin_cases hx <;> exact ⟨(hC _ (by norm_num)).2.1, (hC _ (by norm_num)).2.2⟩
  have hbestG : (bestByConfidence (r 10)
          [r 11, r 12, r 13, r 14, r 15, r 16, r 17, r 18, r 19]).root = "G"
      ∧ (bestByConfidence (r 10)
          [r 11, r 12, r 13, r 14, r 15, r 16, r 17, r 18, r 19]).quality = "dom7" := by
    apply bestByConfidence_prop (fun x => x.root = "G" ∧ x.quality = "dom7")
    · exact ⟨(hG 10 (by norm_num) (by norm_num)).2.1, (hG 10 (by norm_num) (by norm_num)).2.2⟩
    · intro x hx
      fin_cases hx <;>
        exact ⟨(hG _ (by norm_num) (by norm_num)).2.1, (hG _ (by norm_num) (by norm_num)).2.2⟩
  obtain ⟨hdC1, hdC2, hdC3, hdC4⟩ := toDict_fields_major _ hbestC.2
  obtain ⟨hdG1, hdG2, hdG3, hdG4⟩ := toDict_fields_dom7 _ hbestG.2
  refine ⟨⟨(bestByConfidence (r 0) [r 1, r 2, r 3, r 4, r 5, r 6, r 7, r 8, r 9]).toDict,
        0, 1⟩,
      ⟨(bestByConfidence (r 10) [r 11, r 12, r 13, r 14, r 15, r 16, r 17, r 18, r 19]).toDict,
        1, 1⟩,
      ?_, ?_, hdC2, hdC4, rfl, rfl, ?_, hdG2, hdG4, hdG3, rfl, rfl⟩
  · rw [hprog, e1, e2, e3, e4, e5]
  · rw [show (⟨(bestByConfidence (r 0)
        [r 1, r 2, r 3, r 4, r 5, r 6, r 7, r 8, r 9]).toDict, 0, 1⟩
        : ChordSegment).chord.root
      = (bestByConfidence (r 0) [r 1, r 2, r 3, r 4, r 5, r 6, r 7, r 8, r 9]).toDict.root
      from rfl, hdC1]
    exact hbestC.1
  · rw [show (⟨(bestByConfidence (r 10)
        [r 11, r 12, r 13, r 14, r 15, r 16, r 17, r 18, r 19]).toDict, 1, 1⟩
        : ChordSegment).chord.root
      = (bestByConfidence (r 10)
          [r 11, r 12, r 13, r 14, r 15, r 16, r 17, r 18, r 19]).toDict.root
      from rfl, hdG1]
    exact hbestG.1

/-- C2 counterexample: on the concrete 20-frame sequence of ten C major
frames followed by ten G7 frames (each frame analyzing exactly as the
claim assumes), `analyze_progression` emits two one-second segments, but
the `quality` field of the second is the base quality "major" (with the
seventh carried by `extensions` and `originalQuality`), not "dom7" as
the claim states. -/
theorem progression_segment_quality_is_base :
    analyzeFrame vCmaj none none = Except.ok (some rCmaj) ∧ rCmaj.toSymbol = "C" ∧
    rCmaj.root = "C" ∧ rCmaj.quality = "major" ∧
    analyzeFrame vG7 none none = Except.ok (some rG7) ∧ rG7.toSymbol = "G7" ∧
    rG7.root = "G" ∧ rG7.quality = "dom7" ∧
    myFrames.length = 20 ∧
    analyzeProgression myFrames 4410 44100 (1/2) none none = Except.ok [segCmaj, segG7] ∧
    segG7.chord.root = "G" ∧ segG7.chord.quality = "major" ∧
    segG7.chord.quality ≠ "dom7" ∧ segG7.chord.originalQuality = "dom7" := by
  with_unfolding_all decide

/-- Witness for C2 (corrected) on the concrete 20-frame input. -/
theorem progression_two_segments_witness :
    ∃ s1 s2 : ChordSegment,
      analyzeProgression myFrames 4410 44100 (1/2) none none = Except.ok [s1, s2] ∧
      s1.chord.root = "C" ∧ s1.chord.quality = "major" ∧
      s1.chord.originalQuality = "major" ∧
      s1.startTime = 0 ∧ s1.duration = 1 ∧
      s2.chord.root = "G" ∧ s2.chord.quality = "major" ∧
      s2.chord.originalQuality = "dom7" ∧ s2.chord.extensions = ["dom7"] ∧
      s2.startTime = 1 ∧ s2.duration = 1 :=
  progression_two_segments myFrames none none (fun i => if i < 10 then rCmaj else rG7)
    (by with_unfolding_all decide)
    (by with_unfolding_all decide)
    (by with_unfolding_all decide)
    (by with_unfolding_all decide)
